import Mathlib

/-!
Verification development for the `release-manger` repository.

The definitions below are a shallow embedding of
`src/scripts/generate-changelog.js` (the `ChangelogGenerator` class) and of
the `--auto` release-type detection block of `src/scripts/prepare-release.sh`
(lines 190-206).  Strings are modelled as Lean `String`s, character-level
regex work is carried out on `List Char`.  JavaScript's `\s` class and
`String.prototype.trim` are modelled for ASCII input, which covers every
commit subject and body considered here.
-/

set_option maxRecDepth 8192

namespace ReleaseManager

/-- ASCII whitespace as matched by the scripts' regexes and by trim. -/
def isWS (c : Char) : Bool :=
  c == ' ' || c == '\t' || c == '\n' || c == '\r' || c == '\x0b' || c == '\x0c'

/-- JavaScript String.prototype.trim, on the character list. -/
def jsTrim (s : List Char) : List Char :=
  ((s.dropWhile isWS).reverse.dropWhile isWS).reverse

/-- Does the first list occur as a leading segment of the second?
Models a regex alternative anchored at position 0. -/
def startsWithL : List Char → List Char → Bool
  | [], _ => true
  | _ :: _, [] => false
  | p :: ps, c :: cs => p == c && startsWithL ps cs

/-- Substring containment: JavaScript includes, and grep of a fixed
pattern against one line. -/
def containsL (s pat : List Char) : Bool :=
  startsWithL pat s ||
    match s with
    | [] => false
    | _ :: rest => containsL rest pat

/-- A raw commit as handed to the generator: full hash, subject line, body.
Mirrors the `hash|subject|body` split in getCommitsSinceLastTag. -/
structure RawCommit where
  hash : String
  subject : String
  body : String
deriving DecidableEq

/-- The classified commit record built in getCommitsSinceLastTag
(generate-changelog.js lines 70-81). -/
structure Commit where
  hash : String
  subject : String
  body : String
  type : String
  scope : String
  message : String
  breaking : Bool
deriving DecidableEq

/-- The ordered alternation of the type regex
`^(feat|fix|docs|style|refactor|perf|test|chore|ci|revert)`. -/
def typeKeywords : List String :=
  ["feat", "fix", "docs", "style", "refactor", "perf", "test", "chore", "ci", "revert"]

/-- getCommitType (generate-changelog.js lines 90-93): the subject is matched
against the anchored alternation above; JavaScript tries the alternatives in
order, so the first keyword that is a prefix of the subject wins, and a
subject matching no keyword yields the fallback type. -/
def getCommitType (subject : String) : String :=
  match typeKeywords.find? (fun t => startsWithL t.data subject.data) with
  | some t => t
  | none => "other"

/-- getCommitScope (generate-changelog.js lines 95-98): the regex
`^[^(]+\(([^)]+)\)` requires a non-empty run of characters before the first
opening parenthesis, then captures the non-empty run up to the first closing
parenthesis, which must exist.  Any failure yields the empty scope. -/
def getCommitScope (subject : String) : String :=
  let cs := subject.data
  let pre := cs.takeWhile (fun c => c != '(')
  match cs.dropWhile (fun c => c != '(') with
  | '(' :: tail =>
    if pre.isEmpty then "" else
      let sc := tail.takeWhile (fun c => c != ')')
      match tail.dropWhile (fun c => c != ')') with
      | ')' :: _ => if sc.isEmpty then "" else String.mk sc
      | _ => ""
  | _ => ""

/-- getCommitMessage (generate-changelog.js lines 100-102): replaces the
first match of `^[^:]+:\s*` with the empty string.  With no colon, or with a
leading colon, nothing matches and the subject is returned unchanged. -/
def getCommitMessage (subject : String) : String :=
  let cs := subject.data
  let pre := cs.takeWhile (fun c => c != ':')
  match cs.dropWhile (fun c => c != ':') with
  | ':' :: tail => if pre.isEmpty then subject else String.mk (tail.dropWhile isWS)
  | _ => subject

/-- The breaking-change marker searched for in the commit body
(generate-changelog.js line 79). -/
def breakingMarker : String := "BREAKING CHANGE"

/-- The record constructor of getCommitsSinceLastTag (lines 72-80): the hash
is shortened to seven characters, subject and body are trimmed for storage,
while type, scope, message and the breaking flag are computed from the raw
fields exactly as in the source. -/
def classify (r : RawCommit) : Commit :=
  { hash := String.mk (r.hash.data.take 7)
    subject := String.mk (jsTrim r.subject.data)
    body := String.mk (jsTrim r.body.data)
    type := getCommitType r.subject
    scope := getCommitScope r.subject
    message := getCommitMessage r.subject
    breaking := containsL r.body.data breakingMarker.data }

/-- The six category labels of groupCommits, in the insertion order of the
`groups` object literal (generate-changelog.js lines 105-112), which is the
order Object.entries later yields them in. -/
def categories : List String :=
  ["Breaking Changes", "Features", "Bug Fixes", "Performance", "Documentation", "Other"]

/-- The branch cascade of the forEach inside groupCommits
(generate-changelog.js lines 114-128): the first matching branch selects the
single bucket a commit is pushed into. -/
def bucketOf (c : Commit) : String :=
  if c.breaking then "Breaking Changes"
  else if c.type == "feat" then "Features"
  else if c.type == "fix" then "Bug Fixes"
  else if c.type == "perf" then "Performance"
  else if c.type == "docs" then "Documentation"
  else "Other"

/-- groupCommits (generate-changelog.js lines 104-131): each bucket receives,
in input order, exactly the commits whose branch selects it, and
`Object.entries(groups).filter(...)` drops the empty buckets while keeping
the category order. -/
def groupCommits (cs : List Commit) : List (String × List Commit) :=
  (categories.map (fun g => (g, cs.filter (fun c => bucketOf c == g)))).filter
    (fun p => !p.2.isEmpty)

/-- formatCommit (generate-changelog.js lines 133-137): note that the scope
fragment is appended after the message, exactly as in the source. -/
def formatCommit (c : Commit) : String :=
  let scope := if c.scope != "" then " **" ++ c.scope ++ "**:" else ""
  let link := " ([" ++ c.hash ++ "](../../commit/" ++ c.hash ++ "))"
  "- " ++ c.message ++ scope ++ link

/-- Sequential string accumulation, modelling the `entries +=` loop. -/
def concatAll : List String → String
  | [] => ""
  | s :: rest => s ++ concatAll rest

/-- One iteration of the outer loop of generateEntries
(generate-changelog.js lines 147-153). -/
def renderGroup (p : String × List Commit) : String :=
  "### " ++ p.1 ++ "\n\n" ++ concatAll (p.2.map (fun c => formatCommit c ++ "\n")) ++ "\n"

/-- generateEntries (generate-changelog.js lines 139-156). -/
def generateEntries (cs : List Commit) : String :=
  if cs.isEmpty then "" else concatAll ((groupCommits cs).map renderGroup)

/-- generateReleaseSection (generate-changelog.js lines 166-173); the date is
a parameter because the source reads the system clock. -/
def generateReleaseSection (version date entries : String) : String :=
  if (jsTrim entries.data).isEmpty then ""
  else "## [" ++ version ++ "] - " ++ date ++ "\n\n" ++ entries ++ "\n"

/-- The combination step of generate (generate-changelog.js lines 215-218):
a fresh header is synthesized only when the existing text does not already
start with it, and the release section is prepended to the whole existing
text. -/
def mergeChangelog (releaseSection existing : String) : String :=
  let header := if startsWithL ("# Changelog").data existing.data then "" else "# Changelog\n\n"
  header ++ releaseSection ++ existing

/-- generate (generate-changelog.js lines 193-226) as a function of the
commit list, version, date and existing changelog text: `none` models the
early return at lines 200-203, where no content is composed and no write is
performed; `some out` models writeChangelog receiving `out`. -/
def generate (cs : List Commit) (version date existing : String) : Option String :=
  if cs.length = 0 then none
  else some (mergeChangelog (generateReleaseSection version date (generateEntries cs)) existing)

/-- detectVersion (generate-changelog.js lines 37-44): the argument is the
version read from package.json, or `none` when reading or parsing threw. -/
def detectVersion (manifestVersion : Option String) : String :=
  match manifestVersion with
  | some v => v
  | none => "1.0.0"

/-- The contract the specification states for the missing-version case: a
hard failure propagated to the caller, never a substituted default.  Kept
distinct from `detectVersion`, which embeds the source, so the two can be
compared. -/
def detectVersionSpec (manifestVersion : Option String) : Except String String :=
  match manifestVersion with
  | some v => Except.ok v
  | none => Except.error "missing or unparseable manifest version"

/-- The `git log --oneline` rendering of a commit: abbreviated hash, a
space, and the subject; this is all the prepare-release.sh auto-detect block
ever sees, bodies are absent. -/
def oneline (c : Commit) : String := c.hash ++ " " ++ c.subject

/-- The auto-detect cascade of prepare-release.sh (lines 196-205): grep for
`^.*BREAKING CHANGE` anywhere in a history line, else grep for `^.*feat`,
else fall through to patch.  The leading `^.*` is vacuous, so each grep is a
per-line substring test. -/
def autoDetect (lines : List String) : String :=
  if lines.any (fun l => containsL l.data breakingMarker.data) then "major"
  else if lines.any (fun l => containsL l.data ("feat").data) then "minor"
  else "patch"

/-- The release-type resolution of prepare-release.sh over classified
commits: the script greps the oneline history of the same commit range. -/
def resolve (cs : List Commit) : String :=
  autoDetect (cs.map oneline)

/-! ### General lemmas about the embedding -/

lemma append_ne_empty_left (a b : String) (h : a ≠ "") : a ++ b ≠ "" := by
  obtain ⟨da⟩ := a
  obtain ⟨db⟩ := b
  intro he
  apply h
  have hd : da ++ db = ([] : List Char) := congrArg String.data he
  have hda : da = [] := (List.append_eq_nil.mp hd).1
  rw [hda]

lemma bucketOf_of_breaking (c : Commit) (h : c.breaking = true) :
    bucketOf c = "Breaking Changes" := by
  simp [bucketOf, h]

lemma bucketOf_mem_categories (c : Commit) : bucketOf c ∈ categories := by
  unfold bucketOf
  repeat' split
  all_goals decide

lemma mem_groupCommits_iff (cs : List Commit) (g : String) (l : List Commit) :
    (g, l) ∈ groupCommits cs ↔
      g ∈ categories ∧ l = cs.filter (fun c => bucketOf c == g) ∧ l ≠ [] := by
  unfold groupCommits
  constructor
  · intro h
    rw [List.mem_filter] at h
    obtain ⟨hmem, hp⟩ := h
    rw [List.mem_map] at hmem
    obtain ⟨a, ha, hfa⟩ := hmem
    injection hfa with h1 h2
    subst h1
    subst h2
    refine ⟨ha, rfl, ?_⟩
    intro hn
    rw [hn] at hp
    simp at hp
  · rintro ⟨hg, rfl, hne⟩
    rw [List.mem_filter]
    constructor
    · rw [List.mem_map]
      exact ⟨g, hg, rfl⟩
    · have hfe : (cs.filter (fun c => bucketOf c == g)).isEmpty = false := by
        cases hfil : cs.filter (fun c => bucketOf c == g) with
        | nil => exact absurd hfil hne
        | cons a t => rfl
      simp [hfe]

lemma generateEntries_ne_empty (cs : List Commit) (hne : cs ≠ []) :
    generateEntries cs ≠ "" := by
  have hce : cs.isEmpty = false := by
    cases cs with
    | nil => exact absurd rfl hne
    | cons a t => rfl
  obtain ⟨c, rest, rfl⟩ : ∃ c rest, cs = c :: rest := by
    cases cs with
    | nil => exact absurd rfl hne
    | cons a t => exact ⟨a, t, rfl⟩
  have hpair : (bucketOf c, (c :: rest).filter (fun x => bucketOf x == bucketOf c)) ∈
      groupCommits (c :: rest) := by
    rw [mem_groupCommits_iff]
    refine ⟨bucketOf_mem_categories c, rfl, ?_⟩
    intro hnil
    have hcmem : c ∈ (c :: rest).filter (fun x => bucketOf x == bucketOf c) :=
      List.mem_filter.mpr ⟨List.mem_cons_self c rest, by simp⟩
    rw [hnil] at hcmem
    exact absurd hcmem (List.not_mem_nil c)
  have hG : groupCommits (c :: rest) ≠ [] := List.ne_nil_of_mem hpair
  unfold generateEntries
  simp only [hce, Bool.false_eq_true, if_false]
  cases hGc : groupCommits (c :: rest) with
  | nil => exact absurd hGc hG
  | cons p ps =>
    rw [List.map_cons]
    show renderGroup p ++ concatAll (ps.map renderGroup) ≠ ""
    apply append_ne_empty_left
    unfold renderGroup
    apply append_ne_empty_left
    apply append_ne_empty_left
    apply append_ne_empty_left
    apply append_ne_empty_left
    decide

example : getCommitType "feat: " = "feat" := by decide
example : getCommitType "random(x): do it" = "other" := by decide
example : getCommitScope "random(x): do it" = "x" := by decide
example : getCommitMessage "random(x): do it" = "do it" := by decide
example : getCommitMessage "URL: http://x" = "http://x" := by decide
example : getCommitScope "feat(auth): add JWT login" = "auth" := by decide
example : getCommitMessage "feat(auth): add JWT login" = "add JWT login" := by decide
example : (classify ⟨"abc1234def", "feat: add x", "BREAKING CHANGE: y"⟩).breaking = true := by
  decide
example : resolve [classify ⟨"abc1234", "chore: update deps", ""⟩] = "patch" := by decide
example : resolve [] = "patch" := by decide
example :
    resolve [classify ⟨"abc1234", "fix: drop legacy API", "BREAKING CHANGE: removed legacyAPI()"⟩]
      = "patch" := by decide
example : resolve [classify ⟨"abc1234", "feat: add x", ""⟩] = "minor" := by decide
example :
    formatCommit (classify ⟨"abc1234", "feat(s): d", ""⟩)
      = "- d **s**: ([abc1234](../../commit/abc1234))" := by decide
example :
    generate [classify ⟨"abc1234", "feat: add x", ""⟩] "1.1.0" "2024-01-15" ""
      = some "# Changelog\n\n## [1.1.0] - 2024-01-15\n\n### Features\n\n- add x ([abc1234](../../commit/abc1234))\n\n\n"
    := by decide
example :
    generate [classify ⟨"abc1234", "feat: add x", ""⟩] "1.1.0" "2024-01-15" "# Changelog\n\nOld.\n"
      = some "## [1.1.0] - 2024-01-15\n\n### Features\n\n- add x ([abc1234](../../commit/abc1234))\n\n\n# Changelog\n\nOld.\n"
    := by decide

/-! ### Claim theorems -/

/-- C1: the merge step of generate never inserts the new release section
after an existing top-level header.  When the existing changelog already
starts with the header, the source prepends the release section to the whole
existing text, so the output begins with the release section and the header
is no longer the first line, refuting the claim; only for empty existing
text does the output start with a fresh single header. -/
theorem changelog_merge_header_bug :
    generate [classify ⟨"abc1234def", "feat: add x", ""⟩] "1.1.0" "2024-01-15"
        "# Changelog\n\nOld notes.\n"
      ≠ none ∧
    startsWithL ("# Changelog").data
        ((generate [classify ⟨"abc1234def", "feat: add x", ""⟩] "1.1.0" "2024-01-15"
          "# Changelog\n\nOld notes.\n").getD "").data = false ∧
    startsWithL ("## [1.1.0]").data
        ((generate [classify ⟨"abc1234def", "feat: add x", ""⟩] "1.1.0" "2024-01-15"
          "# Changelog\n\nOld notes.\n").getD "").data = true ∧
    startsWithL ("# Changelog").data
        ((generate [classify ⟨"abc1234def", "feat: add x", ""⟩] "1.1.0" "2024-01-15"
          "").getD "").data = true := by
  decide

/-- C2 counterexample: rendering the feat commit with hash abc1234, scope s
and description d yields the scope after the description, not the claimed
bold prefix before it. -/
theorem formatCommit_scope_prefix_counterexample :
    formatCommit (classify ⟨"abc1234", "feat(s): d", ""⟩)
        = "- d **s**: ([abc1234](../../commit/abc1234))" ∧
    formatCommit (classify ⟨"abc1234", "feat(s): d", ""⟩)
        ≠ "- **s**: d ([abc1234](../../commit/abc1234))" := by
  decide

/-- C2 amended: for every commit with non-empty scope, the rendered line is
a dash, the description, then the bold scope fragment with a trailing colon,
then the commit-hash markdown link. -/
theorem formatCommit_scope_suffix (c : Commit) (h : c.scope ≠ "") :
    formatCommit c
      = "- " ++ c.message ++ (" **" ++ c.scope ++ "**:")
          ++ (" ([" ++ c.hash ++ "](../../commit/" ++ c.hash ++ "))") := by
  have hb : (c.scope != "") = true := bne_iff_ne.mpr h
  simp [formatCommit, hb]

/-- Witness for the amended C2 at the commit classified from
`feat(s): d` with hash abc1234. -/
theorem formatCommit_scope_suffix_witness :
    (classify ⟨"abc1234", "feat(s): d", ""⟩).scope ≠ "" ∧
    formatCommit (classify ⟨"abc1234", "feat(s): d", ""⟩)
      = "- " ++ (classify ⟨"abc1234", "feat(s): d", ""⟩).message
          ++ (" **" ++ (classify ⟨"abc1234", "feat(s): d", ""⟩).scope ++ "**:")
          ++ (" ([" ++ (classify ⟨"abc1234", "feat(s): d", ""⟩).hash ++ "](../../commit/"
              ++ (classify ⟨"abc1234", "feat(s): d", ""⟩).hash ++ "))") :=
  ⟨by decide, formatCommit_scope_suffix (classify ⟨"abc1234", "feat(s): d", ""⟩) (by decide)⟩

/-- C3 counterexample: the subject consisting of a recognized type prefix,
a colon and an empty description is still matched by the prefix-only type
regex, so the record is typed feat with an empty description, not treated as
other with the subject unchanged. -/
theorem classify_empty_description_counterexample :
    ¬ ((classify ⟨"abc1234", "feat: ", ""⟩).type = "other" ∧
        (classify ⟨"abc1234", "feat: ", ""⟩).scope = "" ∧
        (classify ⟨"abc1234", "feat: ", ""⟩).message = "feat: ") ∧
    (classify ⟨"abc1234", "feat: ", ""⟩).type = "feat" ∧
    (classify ⟨"abc1234", "feat: ", ""⟩).scope = "" ∧
    (classify ⟨"abc1234", "feat: ", ""⟩).message = "" := by
  decide

/-- C3 amended: for every recognized type keyword t, the subject made of t,
a colon and a single space classifies with type t, empty scope and empty
description, because the type regex needs no description and the message
regex strips everything through the colon and trailing whitespace. -/
theorem classify_empty_description_amended (t : String) (ht : t ∈ typeKeywords) :
    getCommitType (t ++ ": ") = t ∧ getCommitScope (t ++ ": ") = ""
      ∧ getCommitMessage (t ++ ": ") = "" := by
  fin_cases ht <;> decide

/-- Witness for the amended C3 at the keyword feat. -/
theorem classify_empty_description_amended_witness :
    ("feat" ∈ typeKeywords) ∧
      (getCommitType ("feat" ++ ": ") = "feat" ∧ getCommitScope ("feat" ++ ": ") = ""
        ∧ getCommitMessage ("feat" ++ ": ") = "") :=
  ⟨by decide, classify_empty_description_amended "feat" (by decide)⟩

/-- C4 counterexample: the subject `random(x): do it` matches no type
keyword, yet its scope is extracted as x and its description is stripped to
`do it`, refuting the claim that non-matching subjects keep an empty scope
and the whole subject as description. -/
theorem classify_no_match_counterexample :
    (classify ⟨"abc1234", "random(x): do it", ""⟩).type = "other" ∧
    (classify ⟨"abc1234", "random(x): do it", ""⟩).scope = "x" ∧
    (classify ⟨"abc1234", "random(x): do it", ""⟩).scope ≠ "" ∧
    (classify ⟨"abc1234", "random(x): do it", ""⟩).message = "do it" ∧
    (classify ⟨"abc1234", "random(x): do it", ""⟩).message ≠ "random(x): do it" := by
  decide

/-- C4 amended: a subject starting with no recognized type keyword gets type
other, but scope and description are computed by independent regexes: the
first parenthesized group after a non-empty paren-free run still becomes the
scope, and everything through the first colon plus following whitespace is
still stripped from the description, as the two cited subjects show. -/
theorem classify_no_match_amended (s : String)
    (h : typeKeywords.all (fun t => !startsWithL t.data s.data) = true) :
    getCommitType s = "other" ∧
      getCommitScope "random(x): do it" = "x" ∧ getCommitMessage "random(x): do it" = "do it" ∧
      getCommitScope "URL: http://x" = "" ∧ getCommitMessage "URL: http://x" = "http://x" := by
  refine ⟨?_, by decide, by decide, by decide, by decide⟩
  unfold getCommitType
  have hnone : typeKeywords.find? (fun t => startsWithL t.data s.data) = none := by
    rw [List.find?_eq_none]
    intro x hx
    have hx2 := List.all_eq_true.mp h x hx
    simpa using hx2
  rw [hnone]

/-- Witness for the amended C4 at the subject `URL: http://x`. -/
theorem classify_no_match_amended_witness :
    (typeKeywords.all (fun t => !startsWithL t.data ("URL: http://x").data) = true) ∧
      (getCommitType "URL: http://x" = "other" ∧
        getCommitScope "random(x): do it" = "x" ∧ getCommitMessage "random(x): do it" = "do it" ∧
        getCommitScope "URL: http://x" = "" ∧ getCommitMessage "URL: http://x" = "http://x") :=
  ⟨by decide, classify_no_match_amended "URL: http://x" (by decide)⟩

/-- C5 counterexample: a single non-breaking chore commit resolves to patch,
not none, and so does the empty sequence; the auto-detect block of
prepare-release.sh has no none outcome at all. -/
theorem resolve_no_bump_counterexample :
    resolve [classify ⟨"abc1234", "chore: update deps", ""⟩] = "patch" ∧
    resolve [classify ⟨"abc1234", "chore: update deps", ""⟩] ≠ "none" ∧
    (classify ⟨"abc1234", "chore: update deps", ""⟩).type = "chore" ∧
    (classify ⟨"abc1234", "chore: update deps", ""⟩).breaking = false ∧
    resolve [] = "patch" ∧ resolve [] ≠ "none" := by
  decide

/-- C5 amended: every commit sequence, the empty one included, whose oneline
history lines contain neither the breaking marker nor the substring feat
resolves to patch, the script's fallback; the script never resolves to
none. -/
theorem resolve_defaults_to_patch (cs : List Commit)
    (h1 : (cs.map oneline).all (fun l => !containsL l.data breakingMarker.data) = true)
    (h2 : (cs.map oneline).all (fun l => !containsL l.data ("feat").data) = true) :
    resolve cs = "patch" := by
  have hb : (cs.map oneline).any (fun l => containsL l.data breakingMarker.data) = false := by
    rw [List.any_eq_false]
    intro x hx
    simpa using List.all_eq_true.mp h1 x hx
  have hf : (cs.map oneline).any (fun l => containsL l.data ("feat").data) = false := by
    rw [List.any_eq_false]
    intro x hx
    simpa using List.all_eq_true.mp h2 x hx
  simp [resolve, autoDetect, hb, hf]

/-- Witness for the amended C5 at a single chore commit. -/
theorem resolve_defaults_to_patch_witness :
    (([classify ⟨"abc1234", "chore: bump deps", ""⟩].map oneline).all
        (fun l => !containsL l.data breakingMarker.data) = true) ∧
    (([classify ⟨"abc1234", "chore: bump deps", ""⟩].map oneline).all
        (fun l => !containsL l.data ("feat").data) = true) ∧
    resolve [classify ⟨"abc1234", "chore: bump deps", ""⟩] = "patch" :=
  ⟨by decide, by decide,
    resolve_defaults_to_patch [classify ⟨"abc1234", "chore: bump deps", ""⟩]
      (by decide) (by decide)⟩

/-- C6: a commit whose body carries the breaking marker is flagged breaking
by the generator, yet the prepare-release.sh auto-detect greps the oneline
history, which shows only hashes and subjects, so the marker is invisible
and the sequence resolves to patch instead of the claimed major. -/
theorem resolve_breaking_body_bug :
    (classify ⟨"abc1234def", "fix: drop legacy API",
        "BREAKING CHANGE: removed legacyAPI()"⟩).breaking = true ∧
    resolve [classify ⟨"abc1234def", "fix: drop legacy API",
        "BREAKING CHANGE: removed legacyAPI()"⟩] = "patch" ∧
    ("patch" : String) ≠ "major" := by
  decide

/-- C7: a breaking commit lands in the Breaking Changes bucket of
groupCommits and in no other bucket, because the branch cascade tests the
breaking flag first and pushes into exactly one bucket. -/
theorem breaking_commit_only_in_breaking_section (cs : List Commit) (c : Commit)
    (hb : c.breaking = true) (hc : c ∈ cs) :
    (∃ l, ("Breaking Changes", l) ∈ groupCommits cs ∧ c ∈ l) ∧
      ∀ g l, (g, l) ∈ groupCommits cs → g ≠ "Breaking Changes" → c ∉ l := by
  constructor
  · refine ⟨cs.filter (fun x => bucketOf x == "Breaking Changes"), ?_, ?_⟩
    · rw [mem_groupCommits_iff]
      refine ⟨by decide, rfl, ?_⟩
      intro hnil
      have hm : c ∈ cs.filter (fun x => bucketOf x == "Breaking Changes") :=
        List.mem_filter.mpr ⟨hc, by simp [bucketOf_of_breaking c hb]⟩
      rw [hnil] at hm
      exact absurd hm (List.not_mem_nil c)
    · exact List.mem_filter.mpr ⟨hc, by simp [bucketOf_of_breaking c hb]⟩
  · intro g l hgl hne hcl
    rw [mem_groupCommits_iff] at hgl
    obtain ⟨hgcat, rfl, hlne⟩ := hgl
    have hbeq := (List.mem_filter.mp hcl).2
    rw [bucketOf_of_breaking c hb] at hbeq
    exact hne (beq_iff_eq.mp hbeq).symm

/-- Witness for C7 at a breaking feat commit in a singleton history. -/
theorem breaking_commit_only_in_breaking_section_witness :
    ((classify ⟨"abc1234x", "feat: drop old", "BREAKING CHANGE: gone"⟩).breaking = true) ∧
    (classify ⟨"abc1234x", "feat: drop old", "BREAKING CHANGE: gone"⟩ ∈
        [classify ⟨"abc1234x", "feat: drop old", "BREAKING CHANGE: gone"⟩]) ∧
    ((∃ l, ("Breaking Changes", l) ∈
          groupCommits [classify ⟨"abc1234x", "feat: drop old", "BREAKING CHANGE: gone"⟩] ∧
        classify ⟨"abc1234x", "feat: drop old", "BREAKING CHANGE: gone"⟩ ∈ l) ∧
      ∀ g l,
        (g, l) ∈ groupCommits [classify ⟨"abc1234x", "feat: drop old", "BREAKING CHANGE: gone"⟩] →
          g ≠ "Breaking Changes" →
            classify ⟨"abc1234x", "feat: drop old", "BREAKING CHANGE: gone"⟩ ∉ l) :=
  ⟨by decide, by decide,
    breaking_commit_only_in_breaking_section
      [classify ⟨"abc1234x", "feat: drop old", "BREAKING CHANGE: gone"⟩]
      (classify ⟨"abc1234x", "feat: drop old", "BREAKING CHANGE: gone"⟩)
      (by decide) (by decide)⟩

/-- C8: for the empty commit sequence the generator performs no write (the
early return, modelled as none), the generated entries text is empty, and
the release section built from it is the empty string, for every version,
date and existing text. -/
theorem synthesize_empty_noop (version date existing : String) :
    generate [] version date existing = none ∧ generateEntries [] = ""
      ∧ generateReleaseSection version date (generateEntries []) = "" := by
  refine ⟨rfl, rfl, ?_⟩
  have hc : (jsTrim (generateEntries []).data).isEmpty = true := by decide
  unfold generateReleaseSection
  rw [if_pos hc]

/-- C9 counterexample: with a missing or unparseable manifest, detectVersion
returns the invented baseline 1.0.0 instead of propagating a failure, so the
claimed hard failure and absence of silent default substitution are false. -/
theorem detectVersion_silent_default_counterexample :
    detectVersion none = "1.0.0" ∧
    detectVersionSpec none = Except.error "missing or unparseable manifest version" ∧
    Except.ok (detectVersion none) ≠ detectVersionSpec none := by
  refine ⟨rfl, rfl, ?_⟩
  intro h
  exact Except.noConfusion h

/-- C9 amended: detectVersion returns the manifest version when one was
read, and silently substitutes the default baseline 1.0.0 when reading or
parsing failed; it never fails. -/
theorem detectVersion_amended (m : Option String) :
    detectVersion m = m.getD "1.0.0" := by
  cases m <;> rfl

/-- C10: grouping is a partition of the classified commits: every commit of
the input list lies in the bucket selected by its branch and in no other
bucket, every emitted bucket is a sublist of the input, so relative input
order is preserved inside each category, and for a non-empty input the
generated entries text is non-empty. -/
theorem groupCommits_partition_entries (cs : List Commit) (hne : cs ≠ []) :
    (∀ c ∈ cs, ∃ l, (bucketOf c, l) ∈ groupCommits cs ∧ c ∈ l) ∧
    (∀ c ∈ cs, ∀ g l, (g, l) ∈ groupCommits cs → c ∈ l → g = bucketOf c) ∧
    (∀ g l, (g, l) ∈ groupCommits cs → List.Sublist l cs) ∧
    generateEntries cs ≠ "" := by
  refine ⟨?_, ?_, ?_, generateEntries_ne_empty cs hne⟩
  · intro c hc
    refine ⟨cs.filter (fun x => bucketOf x == bucketOf c), ?_, ?_⟩
    · rw [mem_groupCommits_iff]
      refine ⟨bucketOf_mem_categories c, rfl, ?_⟩
      intro hnil
      have hm : c ∈ cs.filter (fun x => bucketOf x == bucketOf c) :=
        List.mem_filter.mpr ⟨hc, by simp⟩
      rw [hnil] at hm
      exact absurd hm (List.not_mem_nil c)
    · exact List.mem_filter.mpr ⟨hc, by simp⟩
  · intro c hc g l hgl hcl
    rw [mem_groupCommits_iff] at hgl
    obtain ⟨hgcat, rfl, hlne⟩ := hgl
    exact (beq_iff_eq.mp (List.mem_filter.mp hcl).2).symm
  · intro g l hgl
    rw [mem_groupCommits_iff] at hgl
    obtain ⟨hgcat, rfl, hlne⟩ := hgl
    exact List.filter_sublist cs

/-- Witness for C10 at a singleton docs commit. -/
theorem groupCommits_partition_entries_witness :
    ([classify ⟨"abc1234", "docs: update readme", ""⟩] ≠ ([] : List Commit)) ∧
    ((∀ c ∈ [classify ⟨"abc1234", "docs: update readme", ""⟩],
        ∃ l, (bucketOf c, l) ∈ groupCommits [classify ⟨"abc1234", "docs: update readme", ""⟩] ∧
          c ∈ l) ∧
      (∀ c ∈ [classify ⟨"abc1234", "docs: update readme", ""⟩],
        ∀ g l, (g, l) ∈ groupCommits [classify ⟨"abc1234", "docs: update readme", ""⟩] →
          c ∈ l → g = bucketOf c) ∧
      (∀ g l, (g, l) ∈ groupCommits [classify ⟨"abc1234", "docs: update readme", ""⟩] →
        List.Sublist l [classify ⟨"abc1234", "docs: update readme", ""⟩]) ∧
      generateEntries [classify ⟨"abc1234", "docs: update readme", ""⟩] ≠ "") :=
  ⟨by decide,
    groupCommits_partition_entries [classify ⟨"abc1234", "docs: update readme", ""⟩] (by decide)⟩

end ReleaseManager
